import Mathlib

/-!
Verification of the lak-scraper ingestion/normalization/reconciliation core.

Shallow embedding conventions:
* Python floats are modelled as exact rationals (`ℚ`).  Every magnitude test
  and scale correction in the scrapers operates far away from double-precision
  boundaries, so the branch structure is unaffected by this choice.
* Python strings are modelled as `List Char`; `str.strip()` is `pyStrip`,
  `str.replace` is a `filter`/`map`, and `float(str)` on the cleaned rate
  texts (unsigned decimal literals) is `parseDecimal`: the digits are first
  collected into an integer/fraction pair by `parseParts` and then turned
  into the rational value by `ratOfParts`.
* `datetime` dates are modelled as day numbers (`Int`, days since 1970-01-01,
  the standard civil-calendar bijection `daysFromCivil`/`civilFromDays`);
  `date.weekday()` is `weekday` (Monday = 0), `date - timedelta(days=1)` is
  `z - 1`, and `strftime` is modelled by the formatting functions `fmtMD` /
  `fmtYMD` producing zero-padded character lists exactly as Python does.
* Unbounded `while` loops walk with explicit fuel and return `Option`;
  partial correctness of the walk is what the theorems state.
-/

/-! Characters, digit strings and Python float parsing. -/

def digitChars : List Char :=
  ['0', '1', '2', '3', '4', '5', '6', '7', '8', '9']

def digitChar (n : Nat) : Char := digitChars.getD n '0'

def digitVal (c : Char) : Nat := c.toNat - 48

/-- Value of a digit string read left to right (the accumulator loop that
`float`/`int` conversion performs on a run of digits). -/
def digitsToNat (s : List Char) : Nat :=
  s.foldl (fun a c => a * 10 + digitVal c) 0

/-- Decimal digit expansion, most significant first, driven by explicit fuel
so that it reduces by structural recursion. -/
def natDigitsAux : Nat → Nat → List Char
  | 0, _ => []
  | fuel + 1, n =>
    if n < 10 then [digitChar n]
    else natDigitsAux fuel (n / 10) ++ [digitChar (n % 10)]

/-- Decimal digit expansion of a natural number, most significant first. -/
def natDigits (n : Nat) : List Char := natDigitsAux (n + 1) n

def padZeroLeft (k : Nat) (s : List Char) : List Char :=
  List.replicate (k - s.length) '0' ++ s

/-- Python `str.strip()`: drop whitespace from both ends. -/
def pyStrip (s : List Char) : List Char :=
  ((s.dropWhile Char.isWhitespace).reverse.dropWhile Char.isWhitespace).reverse

def isDigitOrDot (c : Char) : Bool := c.isDigit || c = '.'

def dotCount (s : List Char) : Nat := (s.filter (fun c => c = '.')).length

/-- Integer/fraction decomposition performed by Python `float(text)` on an
unsigned decimal literal: succeeds when the text consists of digits and at
most one dot, with at least one digit (`""`, `"."`, `"1.2.3"`, `"-"` all
raise `ValueError`).  The result `(n, k)` stands for the value `n / 10 ^ k`.
Signs, exponents and `inf`/`nan` never occur in the scraped rate texts and
are not modelled. -/
def parseParts (s : List Char) : Option (Nat × Nat) :=
  if s.all isDigitOrDot = false then none
  else
    match dotCount s with
    | 0 => if s.isEmpty then none else some (digitsToNat s, 0)
    | 1 =>
      let a := s.takeWhile (fun c => c ≠ '.')
      let b := (s.dropWhile (fun c => c ≠ '.')).tail
      if a.isEmpty ∧ b.isEmpty then none
      else some (digitsToNat a * 10 ^ b.length + digitsToNat b, b.length)
    | _ => none

def ratOfParts (p : Nat × Nat) : ℚ := (p.1 : ℚ) / 10 ^ p.2

/-- Python `float(text)` on an unsigned decimal literal. -/
def parseDecimal (s : List Char) : Option ℚ :=
  (parseParts s).map ratOfParts

/-- Decimal rendering of a nonnegative rational whose denominator divides a
power of ten; models Python `str` on such a float value (up to trailing
zeros in the fractional part, which no re-parse can distinguish).
For an integer value the result is Python's exact `"n.0"` form. -/
def renderDecimal (r : ℚ) : List Char :=
  let k := r.den
  let n := r.num.toNat * (10 ^ k / r.den)
  natDigits (n / 10 ^ k) ++ '.' :: padZeroLeft k (natDigits (n % 10 ^ k))

example : parseParts ("2930".data) = some (2930, 0) := by decide
example : parseParts ("2.930".data) = some (2930, 3) := by decide
example : parseParts ("-".data) = none := by decide
example : parseParts ("1.2.3".data) = none := by decide
example : parseParts ("".data) = none := by decide
example : parseParts (".".data) = none := by decide
example : parseDecimal ("2.930".data) = some (293 / 100) := by
  rw [parseDecimal, show parseParts ("2.930".data) = some (2930, 3) from by decide]
  simp [ratOfParts]
  norm_num

/-! Dates (day numbers), weekday, strftime formatting.

`daysFromCivil`/`civilFromDays` are the standard proleptic-Gregorian
bijection between `(year, month, day)` triples and day numbers counted from
1970-01-01, written with floor division. -/

def daysFromCivil (y m d : Int) : Int :=
  let y' := y - (if m ≤ 2 then 1 else 0)
  let era := Int.fdiv y' 400
  let yoe := y' - era * 400
  let mp := Int.emod (m + 9) 12
  let doy := Int.fdiv (153 * mp + 2) 5 + d - 1
  let doe := yoe * 365 + Int.fdiv yoe 4 - Int.fdiv yoe 100 + doy
  era * 146097 + doe - 719468

def civilFromDays (z : Int) : Int × Int × Int :=
  let z' := z + 719468
  let era := Int.fdiv z' 146097
  let doe := z' - era * 146097
  let yoe :=
    Int.fdiv (doe - Int.fdiv doe 1460 + Int.fdiv doe 36524 - Int.fdiv doe 146096) 365
  let doy := doe - (365 * yoe + Int.fdiv yoe 4 - Int.fdiv yoe 100)
  let mp := Int.fdiv (5 * doy + 2) 153
  let d := doy - Int.fdiv (153 * mp + 2) 5 + 1
  let m := mp + (if mp < 10 then 3 else -9)
  (yoe + era * 400 + (if m ≤ 2 then 1 else 0), m, d)

def yearOf (z : Int) : Int := (civilFromDays z).1

def monthOf (z : Int) : Int := (civilFromDays z).2.1

def dayOf (z : Int) : Int := (civilFromDays z).2.2

/-- Python `date.weekday()`: Monday = 0 .. Sunday = 6 (1970-01-01 was a
Thursday, weekday 3). -/
def weekday (z : Int) : Int := Int.emod (z + 3) 7

/-- Two-digit zero-padded field, as `strftime` `%m` / `%d` produce. -/
def fmt2 (n : Int) : List Char := padZeroLeft 2 (natDigits n.toNat)

/-- Four-digit zero-padded year, as `strftime` `%Y` produces. -/
def fmt4 (n : Int) : List Char := padZeroLeft 4 (natDigits n.toNat)

/-- Model of `date.strftime('%m-%d')`. -/
def fmtMD (z : Int) : List Char := fmt2 (monthOf z) ++ '-' :: fmt2 (dayOf z)

/-- Model of `date.strftime('%Y-%m-%d')`. -/
def fmtYMD (z : Int) : List Char :=
  fmt4 (yearOf z) ++ '-' :: (fmt2 (monthOf z) ++ '-' :: fmt2 (dayOf z))

/-- The fixed Lao national-holiday list of `src/core/config.py` (format
MM-DD), duplicated verbatim inside `APBScraper`, `LVBScraper` and the
legacy `bcel_scraper.py`. -/
def HOLIDAYS : List (List Char) :=
  ["01-01".data, "01-20".data, "03-08".data, "04-14".data,
   "04-15".data, "04-16".data, "05-01".data, "12-02".data]

/-- Model of `BaseScraper._is_holiday`: weekend, or month-day in the holiday list.
`BCELScraper`, `LDBScraper`, `APBScraper`, `LVBScraper` and the legacy
`bcel_scraper.py` all carry a textually identical copy of this method. -/
def BaseScraper_is_holiday (z : Int) : Bool :=
  if 5 ≤ weekday z then true
  else decide (fmtMD z ∈ HOLIDAYS)

/-- Model of `BOLScraper._is_holiday`: compares the full `%Y-%m-%d` string against
the MM-DD holiday list and never looks at the weekday. -/
def BOLScraper_is_holiday (z : Int) : Bool :=
  decide (fmtYMD z ∈ HOLIDAYS)

example : daysFromCivil 1970 1 1 = 0 := by decide
example : weekday (daysFromCivil 1970 1 1) = 3 := by decide
example : civilFromDays (daysFromCivil 2025 1 1) = (2025, 1, 1) := by decide
example : weekday (daysFromCivil 2025 1 1) = 2 := by decide
example : weekday (daysFromCivil 2025 1 4) = 5 := by decide
example : fmtMD (daysFromCivil 2025 1 1) = "01-01".data := by decide
example : fmtYMD (daysFromCivil 2025 1 1) = "2025-01-01".data := by decide
example : BaseScraper_is_holiday (daysFromCivil 2025 1 1) = true := by decide
example : BaseScraper_is_holiday (daysFromCivil 2025 1 6) = false := by decide
example : BOLScraper_is_holiday (daysFromCivil 2025 1 1) = false := by decide

/-! Rate-text normalizers. -/

/-- Model of `BOLScraper._extract_rate_from_text`, text-processing stage (lines
161-184): strip; reject `-`/empty; dots removed as thousands separators;
commas turned into decimal dots; defensive removal of other characters;
`float` conversion.  Result as an integer/fraction pair. -/
def BOLScraper_parse_value (text : List Char) : Option (Nat × Nat) :=
  let t := pyStrip text
  if t = ['-'] ∨ t = [] then none
  else
    let s := (((t.filter (fun c => c ≠ '.')).map
      (fun c => if c = ',' then '.' else c)).filter isDigitOrDot)
    if s = [] then none else parseParts s

/-- The BOL-specific adjustment (lines 186-201): for CNY a parsed value
strictly between 0 and 10 is multiplied by 1000. -/
def bolAdjustCNY (cur : List Char) (r : ℚ) : ℚ :=
  if cur = "CNY".data ∧ 0 < r ∧ r < 10 then r * 1000 else r

/-- Model of `BOLScraper._extract_rate_from_text`: parse, then currency adjustment. -/
def BOLScraper_extract_rate (text cur : List Char) : Option ℚ :=
  (BOLScraper_parse_value text).map (fun p => bolAdjustCNY cur (ratOfParts p))

/-- Model of `BCELScraper._extract_rate_from_text`, text-processing stage (legacy
`bcel_scraper.py` lines 58-87; the copy in `src/scrapers/bcel_scraper.py`
lines 215-244 is line-for-line identical, though that module never imports
the `re` module it uses): strip; reject `-`/empty; commas removed as thousands
separators; defensive removal of non-digit/non-dot characters; `float`. -/
def BCELScraper_parse_value (text : List Char) : Option (Nat × Nat) :=
  let t := pyStrip text
  if t = ['-'] ∨ t = [] then none
  else
    let s := (t.filter (fun c => c ≠ ',')).filter isDigitOrDot
    if s = [] then none else parseParts s

/-- The BCEL-specific adjustment (legacy lines 89-123 / package lines
246-280): CNY strictly between 0 and 10 is multiplied by 1000; otherwise
KRW above 1000 is divided by 100. -/
def bcelAdjust (cur : List Char) (r : ℚ) : ℚ :=
  if cur = "CNY".data then (if r < 10 ∧ 0 < r then r * 1000 else r)
  else if cur = "KRW".data then (if 1000 < r then r / 100 else r)
  else r

/-- Model of `BCELScraper._extract_rate_from_text`: parse, then currency adjustment. -/
def BCELScraper_extract_rate (text cur : List Char) : Option ℚ :=
  (BCELScraper_parse_value text).map (fun p => bcelAdjust cur (ratOfParts p))

/-- Model of `BCELScraper._parse_rate` (`src/scrapers/bcel_scraper.py` lines
141-160): strip, remove dots, commas to dots, `float`; any failure is
swallowed and `0.0` is returned. -/
def BCELScraper_parse_rate (s : List Char) : ℚ :=
  (parseDecimal (((pyStrip s).filter (fun c => c ≠ '.')).map
    (fun c => if c = ',' then '.' else c))).getD 0

/-- Model of `APBScraper._parse_rate` (lines 93-102): strip, remove commas,
`float`; any failure yields `0.0`. -/
def APBScraper_parse_rate (s : List Char) : ℚ :=
  (parseDecimal ((pyStrip s).filter (fun c => c ≠ ','))).getD 0

/-- Model of `LVBScraper._parse_rate` (lines 56-67): strip, remove dots, commas to
dots, `float`; any failure yields `0.0`. -/
def LVBScraper_parse_rate (s : List Char) : ℚ :=
  (parseDecimal (((pyStrip s).filter (fun c => c ≠ '.')).map
    (fun c => if c = ',' then '.' else c))).getD 0

example : BOLScraper_parse_value ("2,930".data) = some (2930, 3) := by decide
example : BOLScraper_parse_value ("1.234,56".data) = some (123456, 2) := by decide
example : BOLScraper_parse_value (" - ".data) = none := by decide
example : BCELScraper_parse_value ("1,234.56".data) = some (123456, 2) := by decide
example : BCELScraper_parse_value ("2,930".data) = some (2930, 0) := by decide

/-! Business-day walks. -/

/-- Model of `BCELScraper._get_previous_business_day` (and the identical methods of
`LDBScraper`, `APBScraper`, `LVBScraper` and the legacy `bcel_scraper.py`):
walk back one day at a time until `_is_holiday` is false.  The `while True`
loop is driven by fuel; `none` models a walk that has not yet returned. -/
def BCELScraper_get_previous_business_day : Nat → Int → Option Int
  | 0, _ => none
  | fuel + 1, z =>
    if BaseScraper_is_holiday (z - 1) then
      BCELScraper_get_previous_business_day fuel (z - 1)
    else some (z - 1)

/-- Model of `BOLScraper._get_previous_business_day` (lines 203-217) and the
identical `LAKScraper._get_previous_business_day` (`lak_scraper.py` lines
324-338): walk back one day at a time until the weekday is Monday-Friday;
holidays are never consulted. -/
def BOLScraper_get_previous_business_day : Nat → Int → Option Int
  | 0, _ => none
  | fuel + 1, z =>
    if weekday (z - 1) < 5 then some (z - 1)
    else BOLScraper_get_previous_business_day fuel (z - 1)

/-- Repeated application of the BCEL-style previous-business-day walk. -/
def iterPrevBusinessBCEL (fuel : Nat) : Nat → Int → Option Int
  | 0, z => some z
  | k + 1, z =>
    match BCELScraper_get_previous_business_day fuel z with
    | none => none
    | some z' => iterPrevBusinessBCEL fuel k z'

example :
    BOLScraper_get_previous_business_day 7 (daysFromCivil 2025 1 2) =
      some (daysFromCivil 2025 1 1) := by decide
example :
    BCELScraper_get_previous_business_day 7 (daysFromCivil 2025 1 2) =
      some (daysFromCivil 2024 12 31) := by decide
example :
    BCELScraper_get_previous_business_day 7 (daysFromCivil 2025 1 6) =
      some (daysFromCivil 2025 1 3) := by decide

/-! Fetch orchestration skeletons.

The network/HTML layers are abstracted by an oracle `hasData : Int → Bool`
telling whether the source publishes a non-empty rate table for a given
day; the functions below reproduce exactly the date-selection control flow
of the fetch methods and return the day the rate set was resolved to
(`none` = the "no data" failure). -/

/-- Model of `BCELScraper.fetch_bcel_rate` of the legacy `bcel_scraper.py` (lines
287-361): holiday-adjust the requested date, try it, then on an empty
parse retry the previous calendar day and then the day before that
(three attempts in total). -/
def BCELScraper_fetch_bcel_rate (hasData : Int → Bool) (z : Int) : Option Int :=
  match (if BaseScraper_is_holiday z then
           BCELScraper_get_previous_business_day 366 z
         else some z) with
  | none => none
  | some d0 =>
    if hasData d0 then some d0
    else if hasData (d0 - 1) then some (d0 - 1)
    else if hasData (d0 - 2) then some (d0 - 2)
    else none

/-- Model of `BCELScraper.fetch_rate` of `src/scrapers/bcel_scraper.py` (lines
73-139): holiday-adjust the requested date, make one request, and return
`None` as soon as the parsed rate set is empty (lines 117-119). -/
def BCELScraper_fetch_rate (hasData : Int → Bool) (z : Int) : Option Int :=
  match (if BaseScraper_is_holiday z then
           BCELScraper_get_previous_business_day 366 z
         else some z) with
  | none => none
  | some d0 => if hasData d0 then some d0 else none

/-- Model of `BOLScraper.fetch_rate` of `src/scrapers/bol_scraper.py` (lines
85-141): adjust via `BOLScraper._is_holiday` (which never fires), make one
request, and return `None` on an empty rate set (lines 119-122). -/
def BOLScraper_fetch_rate (hasData : Int → Bool) (z : Int) : Option Int :=
  match (if BOLScraper_is_holiday z then
           BOLScraper_get_previous_business_day 366 z
         else some z) with
  | none => none
  | some d0 => if hasData d0 then some d0 else none

/-! Persistence, from `src/database/db_manager.py`. -/

/-- One row of the `exchange_rates` table created by `ExchangeRateDB._init_db`
(lines 34-60): columns `currency`, `rate`, `bank`, `date`, with the
uniqueness constraint `UNIQUE(currency, bank, date)`.  There is no
`rate_type` column.  The `id`/`created_at` bookkeeping columns carry no
decision logic and are not modelled. -/
structure DBRow where
  currency : String
  rate : ℚ
  bank : String
  date : Int
  deriving DecidableEq

/-- Model of `ExchangeRateDB.save_rate` (lines 62-81): `INSERT OR REPLACE` keyed by
the `UNIQUE(currency, bank, date)` constraint — any existing row with the
same key is removed and the new row inserted. -/
def save_rate (db : List DBRow) (currency : String) (rate : ℚ)
    (date : Int) (bank : String) : List DBRow :=
  (db.filter (fun r =>
    ¬(r.currency = currency ∧ r.bank = bank ∧ r.date = date))) ++
    [⟨currency, rate, bank, date⟩]

/-! Comparison output. -/

/-- The per-cell difference-percentage computation of
`RateComparator.display_comparison` (`src/utils/rate_comparator.py` lines
37-72): `none` models the cell rendered as the string `"N/A"` (which the
code emits exactly when one of the two values is missing); `some q` models
the cell rendered as the formatted number `q`.  With both values present
the code computes `(bcel - bol) / bol * 100` guarded by `if bol != 0`,
falling back to the number `0`. -/
def displayPercentCell (bol bcel : Option ℚ) : Option ℚ :=
  match bol, bcel with
  | some b, some c => some (if b ≠ 0 then (c - b) / b * 100 else 0)
  | _, _ => none

/-- The difference-percentage field of `ExchangeRateDB.get_rate_comparison`
(`src/database/db_manager.py` lines 113-141), computed only when both
banks have a row: `(diff / bol_rate) * 100 if bol_rate != 0 else 0`. -/
def get_rate_comparison_percent (bol bcel : ℚ) : ℚ :=
  if bol ≠ 0 then (bcel - bol) / bol * 100 else 0

/-! Row-level parsing, the `parse` methods of the adapters.

HTML/JSON traversal (BeautifulSoup / dict access) is elided: a row is given
as the already-extracted cell texts, exactly the values the Python code
reads out of `cols[...]` before any further logic runs. -/

/-- Whether `pat` starts the list `s`. -/
def startsWithChars : List Char → List Char → Bool
  | [], _ => true
  | _ :: _, [] => false
  | p :: ps, c :: cs => (p = c) && startsWithChars ps cs

/-- Python's substring test `pat in s`. -/
def hasSubstring : List Char → List Char → Bool
  | [], pat => startsWithChars pat []
  | c :: rest, pat => startsWithChars pat (c :: rest) || hasSubstring rest pat

/-- One table row seen by `BOLScraper.parse` / `BCELScraper.parse`: the
currency cell text and the buy/sell cell texts. -/
structure RawRow where
  currencyText : List Char
  buyText : List Char
  sellText : List Char

/-- A parsed quote: currency plus optional buy/sell values (`None` in the
Python dicts is `none`). -/
structure ParsedQuote where
  currency : List Char
  buy : Option ℚ
  sell : Option ℚ

/-- One iteration of the row loop of `BOLScraper.parse` (lines 59-79):
skip header/blank currency rows, extract buy and sell via
`_extract_rate_from_text`, and keep the row (`some` quote) whenever at
least one of the two parsed. -/
def bolParseRow (row : RawRow) : Option ParsedQuote :=
  if row.currencyText = [] ∨
      (row.currencyText.map Char.toLower) = "currency".data ∨
      (row.currencyText.map Char.toLower) = "currencies".data then none
  else
    if (BOLScraper_extract_rate row.buyText row.currencyText).isSome ∨
        (BOLScraper_extract_rate row.sellText row.currencyText).isSome then
      some ⟨row.currencyText,
        BOLScraper_extract_rate row.buyText row.currencyText,
        BOLScraper_extract_rate row.sellText row.currencyText⟩
    else none

/-- The accumulation pattern shared by all three `parse` row loops: each
row either contributes one quote or is skipped. -/
def keptQuotes {A : Type} (f : A -> Option ParsedQuote) (rows : List A) :
    List ParsedQuote :=
  rows.foldr (fun row acc =>
    match f row with
    | some q => q :: acc
    | none => acc) []

/-- Model of `BOLScraper.parse` (lines 59-79): the rows kept by the row loop. -/
def BOLScraper_parse (rows : List RawRow) : List ParsedQuote :=
  keptQuotes bolParseRow rows

/-- One iteration of the row loop of `BCELScraper.parse`
(`src/scrapers/bcel_scraper.py` lines 38-61): the currency cell must be at
least 3 characters (first 3 are the code, the rest the denomination); a
row whose buy **or** sell cell is `"-"` is dropped; both cells must
convert via `float(text.replace(',', ''))`; USD and EUR additionally
require the `50-100` / `50-500` denomination band. -/
def bcelParseRow (row : RawRow) : Option ParsedQuote :=
  if row.currencyText = [] ∨ row.currencyText.length < 3 then none
  else
    if row.buyText = ['-'] ∨ row.sellText = ['-'] then none
    else
      match parseDecimal (row.buyText.filter (fun c => c ≠ ',')),
            parseDecimal (row.sellText.filter (fun c => c ≠ ',')) with
      | some b, some s =>
        if row.currencyText.take 3 = "USD".data ∨
            row.currencyText.take 3 = "EUR".data then
          if hasSubstring (pyStrip (row.currencyText.drop 3)) ("50-100".data) ∨
              hasSubstring (pyStrip (row.currencyText.drop 3)) ("50-500".data) then
            some ⟨row.currencyText.take 3, some b, some s⟩
          else none
        else some ⟨row.currencyText.take 3, some b, some s⟩
      | _, _ => none

/-- Model of `BCELScraper.parse` (lines 38-61): the rows kept by the row loop. -/
def BCELScraper_parse (rows : List RawRow) : List ParsedQuote :=
  keptQuotes bcelParseRow rows

/-- One item of the LDB JSON `dataResponse` array: currency name and the
optional `fx_buy` / `fx_sell` fields. -/
structure LdbItem where
  name : List Char
  fxBuy : Option (List Char)
  fxSell : Option (List Char)

/-- One iteration of the item loop of `LDBScraper.parse` (lines 58-77):
an item is dropped when the currency name is empty or either of `fx_buy` /
`fx_sell` is `None`; both values must then convert with `float`. -/
def ldbParseItem (item : LdbItem) : Option ParsedQuote :=
  match item.fxBuy, item.fxSell with
  | some bt, some st =>
    if item.name = [] then none
    else
      match parseDecimal bt, parseDecimal st with
      | some b, some s => some ⟨item.name, some b, some s⟩
      | _, _ => none
  | _, _ => none

/-- Model of `LDBScraper.parse` (lines 58-77): the items kept by the item loop. -/
def LDBScraper_parse (items : List LdbItem) : List ParsedQuote :=
  keptQuotes ldbParseItem items

/-! Digit-string lemmas. -/

theorem digitsToNat_append_singleton (xs : List Char) (c : Char) :
    digitsToNat (xs ++ [c]) = digitsToNat xs * 10 + digitVal c := by
  simp [digitsToNat, List.foldl_append]

theorem digitVal_digitChar (m : Nat) (h : m < 10) :
    digitVal (digitChar m) = m := by
  interval_cases m <;> decide

theorem digitsToNat_natDigitsAux (fuel n : Nat) (h : n < 10 ^ fuel) :
    digitsToNat (natDigitsAux fuel n) = n := by
  induction fuel generalizing n with
  | zero =>
    simp only [pow_zero, Nat.lt_one_iff] at h
    subst h
    rfl
  | succ k ih =>
    rw [natDigitsAux]
    by_cases h10 : n < 10
    · rw [if_pos h10]
      simp [digitsToNat, digitVal_digitChar n h10]
    · rw [if_neg h10]
      rw [digitsToNat_append_singleton]
      have hmul : n < 10 ^ k * 10 := by rw [← pow_succ]; exact h
      rw [ih (n / 10) (by omega)]
      rw [digitVal_digitChar (n % 10) (by omega)]
      omega

theorem nat_lt_ten_pow_succ_self (n : Nat) : n < 10 ^ (n + 1) := by
  have h1 : n < 2 ^ n := Nat.lt_two_pow n
  have h2 : 2 ^ n ≤ 10 ^ n := Nat.pow_le_pow_left (by omega) n
  have h3 : 10 ^ n ≤ 10 ^ (n + 1) := Nat.pow_le_pow_right (by omega) (by omega)
  omega

theorem digitsToNat_natDigits (n : Nat) : digitsToNat (natDigits n) = n :=
  digitsToNat_natDigitsAux (n + 1) n (nat_lt_ten_pow_succ_self n)

theorem natDigitsAux_length_le (fuel : Nat) :
    ∀ n k, n < 10 ^ k → 1 ≤ k → (natDigitsAux fuel n).length ≤ k := by
  induction fuel with
  | zero =>
    intro n k _ _
    simp [natDigitsAux]
  | succ f ih =>
    intro n k hn hk
    rw [natDigitsAux]
    by_cases h10 : n < 10
    · rw [if_pos h10]
      simpa using hk
    · rw [if_neg h10]
      have hk2 : 2 ≤ k := by
        by_contra hcon
        have : k = 1 := by omega
        subst this
        simp at hn
        omega
      have hdiv : n / 10 < 10 ^ (k - 1) := by
        have : 10 ^ k = 10 ^ (k - 1) * 10 := by
          rw [← pow_succ]
          congr 1
          omega
        rw [this] at hn
        omega
      have := ih (n / 10) (k - 1) hdiv (by omega)
      simp only [List.length_append, List.length_cons, List.length_nil]
      omega

theorem natDigits_length_le (n k : Nat) (hn : n < 10 ^ k) (hk : 1 ≤ k) :
    (natDigits n).length ≤ k :=
  natDigitsAux_length_le (n + 1) n k hn hk

theorem mem_digitChars_props (c : Char) (h : c ∈ digitChars) :
    c.isDigit = true ∧ c.isWhitespace = false ∧ c ≠ '.' ∧ c ≠ ',' ∧ c ≠ '-' := by
  fin_cases h <;> refine ⟨by decide, by decide, by decide, by decide, by decide⟩

theorem digitChar_mem (m : Nat) (h : m < 10) : digitChar m ∈ digitChars := by
  interval_cases m <;> decide

theorem natDigitsAux_mem (fuel : Nat) :
    ∀ n c, c ∈ natDigitsAux fuel n → c ∈ digitChars := by
  induction fuel with
  | zero => intro n c h; simp [natDigitsAux] at h
  | succ f ih =>
    intro n c h
    rw [natDigitsAux] at h
    by_cases h10 : n < 10
    · rw [if_pos h10] at h
      simp only [List.mem_singleton] at h
      subst h
      exact digitChar_mem n h10
    · rw [if_neg h10] at h
      rcases List.mem_append.mp h with h1 | h2
      · exact ih (n / 10) c h1
      · simp only [List.mem_singleton] at h2
        subst h2
        exact digitChar_mem (n % 10) (by omega)

theorem natDigits_mem (n : Nat) (c : Char) (h : c ∈ natDigits n) :
    c ∈ digitChars :=
  natDigitsAux_mem (n + 1) n c h

theorem natDigits_ne_nil (n : Nat) : natDigits n ≠ [] := by
  rw [natDigits, natDigitsAux]
  by_cases h10 : n < 10
  · rw [if_pos h10]
    simp
  · rw [if_neg h10]
    simp

theorem digitsToNat_replicate_zero_append (j : Nat) (s : List Char) :
    digitsToNat (List.replicate j '0' ++ s) = digitsToNat s := by
  induction j with
  | zero => rfl
  | succ m ih =>
    rw [List.replicate_succ]
    simpa [digitsToNat] using ih

theorem digitsToNat_padZeroLeft (k : Nat) (s : List Char) :
    digitsToNat (padZeroLeft k s) = digitsToNat s :=
  digitsToNat_replicate_zero_append (k - s.length) s

theorem padZeroLeft_length (k : Nat) (s : List Char) (h : s.length ≤ k) :
    (padZeroLeft k s).length = k := by
  simp [padZeroLeft]
  omega

theorem padZeroLeft_length_ge (k : Nat) (s : List Char) :
    k ≤ (padZeroLeft k s).length := by
  simp [padZeroLeft]
  omega

theorem mem_padZeroLeft (k : Nat) (s : List Char) (c : Char)
    (h : c ∈ padZeroLeft k s) : c = '0' ∨ c ∈ s := by
  rcases List.mem_append.mp h with h1 | h2
  · exact Or.inl (List.eq_of_mem_replicate h1)
  · exact Or.inr h2

/-! Parsing the rendering of a decimal rational. -/

theorem takeWhile_append_dot (xs ys : List Char) (h : ∀ c ∈ xs, c ≠ '.') :
    (xs ++ '.' :: ys).takeWhile (fun c => c ≠ '.') = xs := by
  induction xs with
  | nil => simp
  | cons x rest ih =>
    have hx : x ≠ '.' := h x (List.mem_cons_self x rest)
    simp only [List.cons_append, List.takeWhile_cons]
    rw [if_pos (by simpa using hx)]
    rw [ih (fun c hc => h c (List.mem_cons_of_mem x hc))]

theorem dropWhile_append_dot (xs ys : List Char) (h : ∀ c ∈ xs, c ≠ '.') :
    (xs ++ '.' :: ys).dropWhile (fun c => c ≠ '.') = '.' :: ys := by
  induction xs with
  | nil => simp
  | cons x rest ih =>
    have hx : x ≠ '.' := h x (List.mem_cons_self x rest)
    simp only [List.cons_append, List.dropWhile_cons]
    rw [if_pos (by simpa using hx)]
    exact ih (fun c hc => h c (List.mem_cons_of_mem x hc))

theorem dotCount_append_dot (xs ys : List Char)
    (hx : ∀ c ∈ xs, c ≠ '.') (hy : ∀ c ∈ ys, c ≠ '.') :
    dotCount (xs ++ '.' :: ys) = 1 := by
  unfold dotCount
  rw [List.filter_append]
  rw [List.filter_eq_nil_iff.mpr (by intro c hc; simpa using hx c hc)]
  rw [List.filter_cons]
  rw [if_pos (by simp)]
  rw [List.filter_eq_nil_iff.mpr (by intro c hc; simpa using hy c hc)]
  simp

theorem parseParts_render_shape (A B : List Char)
    (hA : ∀ c ∈ A, c ∈ digitChars) (hB : ∀ c ∈ B, c ∈ digitChars)
    (hAne : A ≠ []) :
    parseParts (A ++ '.' :: B) =
      some (digitsToNat A * 10 ^ B.length + digitsToNat B, B.length) := by
  have hAd : ∀ c ∈ A, c ≠ '.' := fun c hc => (mem_digitChars_props c (hA c hc)).2.2.1
  have hBd : ∀ c ∈ B, c ≠ '.' := fun c hc => (mem_digitChars_props c (hB c hc)).2.2.1
  have hall : (A ++ '.' :: B).all isDigitOrDot = true := by
    rw [List.all_eq_true]
    intro c hc
    rcases List.mem_append.mp hc with h1 | h2
    · have := (mem_digitChars_props c (hA c h1)).1
      simp [isDigitOrDot, this]
    · rcases List.mem_cons.mp h2 with h3 | h4
      · subst h3; simp [isDigitOrDot]
      · have := (mem_digitChars_props c (hB c h4)).1
        simp [isDigitOrDot, this]
    
  unfold parseParts
  rw [hall]
  simp only [Bool.true_eq_false, if_false]
  rw [dotCount_append_dot A B hAd hBd]
  rw [takeWhile_append_dot A B hAd, dropWhile_append_dot A B hAd]
  simp only [List.tail_cons]
  rw [if_neg (by
    intro hcon
    exact hAne (List.isEmpty_iff.mp hcon.1))]

/-- Any divisor of a power of ten divides the power of ten with the divisor
itself as the exponent. -/
theorem dvd_ten_pow_self (d K : Nat) (hd : d ∣ 10 ^ K) : d ∣ 10 ^ d := by
  have hd0 : d ≠ 0 := by
    intro h
    subst h
    have h1 := Nat.eq_zero_of_zero_dvd hd
    have h2 : 0 < (10 : Nat) ^ K := Nat.pos_pow_of_pos K (by omega)
    omega
  -- every prime factor of d divides 10, hence is 2 or 5
  have hsupp : d.factorization.support ⊆ ({2, 5} : Finset Nat) := by
    intro p hp
    rw [Nat.support_factorization] at hp
    have hprime : p.Prime := Nat.prime_of_mem_primeFactors hp
    have hpd : p ∣ d := Nat.dvd_of_mem_primeFactors hp
    have hp10 : p ∣ 10 := hprime.dvd_of_dvd_pow (hpd.trans hd)
    have hple : p ≤ 10 := Nat.le_of_dvd (by omega) hp10
    have hge : 2 ≤ p := hprime.two_le
    interval_cases p
    · decide
    · exfalso
      revert hp10
      decide
    · exfalso
      revert hp10
      decide
    · decide
    · exfalso
      revert hp10
      decide
    · exfalso
      revert hp10
      decide
    · exfalso
      revert hp10
      decide
    · exfalso
      revert hp10
      decide
    · exfalso
      revert hprime
      norm_num
  set a := d.factorization 2 with ha
  set b := d.factorization 5 with hb
  have hprod : d = 2 ^ a * 5 ^ b := by
    conv_lhs => rw [← Nat.factorization_prod_pow_eq_self hd0]
    rw [Finsupp.prod_of_support_subset d.factorization hsupp
      (fun p k => p ^ k) (by intro p _; exact pow_zero p)]
    rw [Finset.prod_insert (by decide), Finset.prod_singleton]
  have h2a : 2 ^ a ∣ d := Nat.ordProj_dvd d 2
  have h5b : 5 ^ b ∣ d := Nat.ordProj_dvd d 5
  have ha_le : a ≤ d := by
    have h1 : 2 ^ a ≤ d := Nat.le_of_dvd (by omega) h2a
    have h2 : a < 2 ^ a := Nat.lt_two_pow a
    omega
  have hb_le : b ≤ d := by
    have h1 : 5 ^ b ≤ d := Nat.le_of_dvd (by omega) h5b
    have h2 : b < 5 ^ b := Nat.lt_pow_self (by omega) b
    omega
  calc d = 2 ^ a * 5 ^ b := hprod
    _ ∣ 2 ^ d * 5 ^ d :=
        mul_dvd_mul (pow_dvd_pow 2 ha_le) (pow_dvd_pow 5 hb_le)
    _ = 10 ^ d := by rw [← Nat.mul_pow]

/-- Parsing the decimal rendering of a nonnegative rational whose
denominator divides a power of ten recovers exactly that rational. -/
theorem parseDecimal_renderDecimal (r : ℚ) (h0 : 0 ≤ r)
    (hd : r.den ∣ 10 ^ r.den) :
    parseDecimal (renderDecimal r) = some r := by
  set k := r.den with hk
  set n := r.num.toNat * (10 ^ k / r.den) with hn
  have hkpos : 1 ≤ k := r.pos
  have hfrac_lt : n % 10 ^ k < 10 ^ k :=
    Nat.mod_lt n (Nat.pos_pow_of_pos k (by omega))
  have hfrac_len : (natDigits (n % 10 ^ k)).length ≤ k :=
    natDigits_length_le (n % 10 ^ k) k hfrac_lt hkpos
  have hshape := parseParts_render_shape (natDigits (n / 10 ^ k))
    (padZeroLeft k (natDigits (n % 10 ^ k)))
    (fun c hc => natDigits_mem _ c hc)
    (fun c hc => by
      rcases mem_padZeroLeft _ _ c hc with h1 | h2
      · subst h1; decide
      · exact natDigits_mem _ c h2)
    (natDigits_ne_nil _)
  rw [parseDecimal, renderDecimal]
  rw [← hk, ← hn]
  rw [hshape]
  rw [padZeroLeft_length k _ hfrac_len]
  rw [digitsToNat_natDigits, digitsToNat_padZeroLeft, digitsToNat_natDigits]
  have hsplit : (n / 10 ^ k) * 10 ^ k + n % 10 ^ k = n := Nat.div_add_mod' n (10 ^ k)
  rw [hsplit]
  have hnum : 0 ≤ r.num := Rat.num_nonneg.mpr h0
  have hdvd' : r.den ∣ 10 ^ k := by rw [hk]; exact hd
  have hden0 : ((r.den : ℚ)) ≠ 0 := Nat.cast_ne_zero.mpr r.den_nz
  have h10k : ((10 : ℚ)) ^ k ≠ 0 := by positivity
  have hA : ((r.num.toNat : ℕ) : ℚ) = (r.num : ℚ) := by
    exact_mod_cast congrArg (fun z : ℤ => (z : ℚ)) (Int.toNat_of_nonneg hnum)
  have hB : ((10 ^ k / r.den : ℕ) : ℚ) = (10 : ℚ) ^ k / (r.den : ℚ) := by
    rw [Nat.cast_div hdvd' hden0]
    push_cast
    ring
  have hval : ((n : ℚ)) = r * (10 : ℚ) ^ k := by
    calc ((n : ℚ)) = ((r.num.toNat : ℕ) : ℚ) * ((10 ^ k / r.den : ℕ) : ℚ) := by
          rw [hn]
          push_cast
          ring
      _ = (r.num : ℚ) * ((10 : ℚ) ^ k / (r.den : ℚ)) := by rw [hA, hB]
      _ = r * (10 : ℚ) ^ k := by
          conv_rhs => rw [← Rat.num_div_den r]
          ring
  have hfinal : ratOfParts (n, k) = r := by
    rw [ratOfParts]
    simp only
    rw [hval]
    field_simp
  simp only [Option.map_some', hfinal]

/-- Every successful `parseParts` value is nonnegative with denominator
dividing a power of ten. -/
theorem ratOfParts_nonneg (p : Nat × Nat) : 0 ≤ ratOfParts p := by
  rw [ratOfParts]
  positivity

theorem ratOfParts_den_dvd (p : Nat × Nat) :
    (ratOfParts p).den ∣ 10 ^ (ratOfParts p).den := by
  have h1 : (ratOfParts p).den ∣ 10 ^ p.2 := by
    rw [ratOfParts]
    have := Rat.den_dvd (p.1 : ℤ) ((10 : ℤ) ^ p.2)
    rw [Rat.divInt_eq_div] at this
    have hcast : ((p.1 : ℤ) : ℚ) / ((10 ^ p.2 : ℤ) : ℚ) = (p.1 : ℚ) / 10 ^ p.2 := by
      push_cast
      ring
    rw [hcast] at this
    exact_mod_cast this
  exact dvd_ten_pow_self _ _ h1

/-! The rendered string survives the BCEL cleaning pipeline. -/

theorem pyStrip_no_whitespace (s : List Char)
    (h : ∀ c ∈ s, c.isWhitespace = false) : pyStrip s = s := by
  have h1 : s.dropWhile Char.isWhitespace = s := by
    cases s with
    | nil => rfl
    | cons x xs =>
      rw [List.dropWhile_cons, if_neg (by simp [h x (List.mem_cons_self x xs)])]
  rw [pyStrip, h1]
  have h2 : s.reverse.dropWhile Char.isWhitespace = s.reverse := by
    cases hrev : s.reverse with
    | nil => rfl
    | cons x xs =>
      have hx : x ∈ s := by
        rw [← List.mem_reverse, hrev]
        exact List.mem_cons_self x xs
      rw [List.dropWhile_cons, if_neg (by simp [h x hx])]
  rw [h2, List.reverse_reverse]

theorem mem_renderDecimal (r : ℚ) (c : Char) (h : c ∈ renderDecimal r) :
    c ∈ digitChars ∨ c = '.' := by
  simp only [renderDecimal] at h
  rcases List.mem_append.mp h with h1 | h2
  · exact Or.inl (natDigits_mem _ c h1)
  · rcases List.mem_cons.mp h2 with h3 | h4
    · exact Or.inr h3
    · rcases mem_padZeroLeft _ _ c h4 with h5 | h6
      · subst h5
        exact Or.inl (by decide)
      · exact Or.inl (natDigits_mem _ c h6)

theorem renderDecimal_char_props (r : ℚ) (c : Char) (h : c ∈ renderDecimal r) :
    c.isWhitespace = false ∧ c ≠ ',' ∧ isDigitOrDot c = true := by
  rcases mem_renderDecimal r c h with h1 | h2
  · obtain ⟨hd, hw, _, hcm, _⟩ := mem_digitChars_props c h1
    exact ⟨hw, hcm, by simp [isDigitOrDot, hd]⟩
  · subst h2
    refine ⟨by decide, by decide, by decide⟩

theorem renderDecimal_ne_nil (r : ℚ) : renderDecimal r ≠ [] := by
  simp only [renderDecimal]
  intro hcon
  have := List.append_eq_nil.mp hcon
  exact List.cons_ne_nil _ _ this.2

theorem renderDecimal_ne_dash (r : ℚ) : renderDecimal r ≠ ['-'] := by
  intro hcon
  have hmem : '-' ∈ renderDecimal r := by
    rw [hcon]
    exact List.mem_singleton_self '-'
  rcases mem_renderDecimal r '-' hmem with h1 | h2
  · revert h1
    decide
  · revert h2
    decide

theorem bcel_parse_value_render (r : ℚ) (h0 : 0 ≤ r)
    (hd : r.den ∣ 10 ^ r.den) :
    ∃ p, BCELScraper_parse_value (renderDecimal r) = some p ∧
      ratOfParts p = r := by
  have hstrip : pyStrip (renderDecimal r) = renderDecimal r :=
    pyStrip_no_whitespace _ (fun c hc => (renderDecimal_char_props r c hc).1)
  have hf1 : (renderDecimal r).filter (fun c => c ≠ ',') = renderDecimal r :=
    List.filter_eq_self.mpr (fun c hc => by
      simpa using (renderDecimal_char_props r c hc).2.1)
  have hf2 : (renderDecimal r).filter isDigitOrDot = renderDecimal r :=
    List.filter_eq_self.mpr (fun c hc => (renderDecimal_char_props r c hc).2.2)
  have hparse := parseDecimal_renderDecimal r h0 hd
  rw [parseDecimal] at hparse
  rw [BCELScraper_parse_value]
  simp only [hstrip, hf1, hf2]
  rw [if_neg (by
    rintro (hcon | hcon)
    · exact renderDecimal_ne_dash r hcon
    · exact renderDecimal_ne_nil r hcon)]
  rw [if_neg (renderDecimal_ne_nil r)]
  cases hpp : parseParts (renderDecimal r) with
  | none =>
    rw [hpp] at hparse
    simp at hparse
  | some p =>
    rw [hpp] at hparse
    simp only [Option.map_some', Option.some.injEq] at hparse
    exact ⟨p, rfl, hparse⟩

/-! Calendar facts. -/

theorem mem_HOLIDAYS_length : ∀ s ∈ HOLIDAYS, s.length = 5 := by decide

theorem fmtYMD_length_ge (z : Int) : 10 ≤ (fmtYMD z).length := by
  have h1 := padZeroLeft_length_ge 4 (natDigits (yearOf z).toNat)
  have h2 := padZeroLeft_length_ge 2 (natDigits (monthOf z).toNat)
  have h3 := padZeroLeft_length_ge 2 (natDigits (dayOf z).toNat)
  simp only [fmtYMD, fmt4, fmt2, List.length_append, List.length_cons]
  omega

theorem BOLScraper_is_holiday_eq_false (z : Int) :
    BOLScraper_is_holiday z = false := by
  rw [BOLScraper_is_holiday]
  simp only [decide_eq_false_iff_not]
  intro hmem
  have h5 := mem_HOLIDAYS_length _ hmem
  have h10 := fmtYMD_length_ge z
  omega

theorem BaseScraper_is_holiday_char (z : Int) :
    BaseScraper_is_holiday z = false ↔
      (weekday z < 5 ∧ fmtMD z ∉ HOLIDAYS) := by
  by_cases h : 5 ≤ weekday z
  · rw [BaseScraper_is_holiday, if_pos h]
    constructor
    · intro hcon
      simp at hcon
    · rintro ⟨h1, _⟩
      omega
  · rw [BaseScraper_is_holiday, if_neg h]
    constructor
    · intro hfalse
      have hnm : fmtMD z ∉ HOLIDAYS := by simpa using hfalse
      exact ⟨by omega, hnm⟩
    · rintro ⟨_, hnm⟩
      simpa using hnm

/-- Claim C2: the trading-day test.  The `BaseScraper._is_holiday`
predicate shared by the BCEL/LDB/APB/LVB scrapers behaves exactly as the
claim states (false on trading days iff the date is a weekday whose
month-day is outside the configured holiday set, in particular true on
every Saturday/Sunday and on 01-01, 05-01, 12-02 of any year) — but
`BOLScraper._is_holiday` returns false on **every** date, because it
compares the full `%Y-%m-%d` string (length ≥ 10) against the MM-DD
holiday entries (length 5) and skips the weekend check, so the claim fails
for the BOL scraper: 2025-01-01 (a Wednesday and a configured holiday) and
2025-01-04 (a Saturday) are both reported as trading days by BOL. -/
theorem C2_theorem :
    (∀ z : Int, BaseScraper_is_holiday z = false ↔
      (weekday z < 5 ∧ fmtMD z ∉ HOLIDAYS))
    ∧ (∀ z : Int, monthOf z = 1 → dayOf z = 1 →
        BaseScraper_is_holiday z = true)
    ∧ (∀ z : Int, 5 ≤ weekday z → BaseScraper_is_holiday z = true)
    ∧ (∀ z : Int, BOLScraper_is_holiday z = false)
    ∧ BaseScraper_is_holiday (daysFromCivil 2025 1 1) = true
    ∧ BaseScraper_is_holiday (daysFromCivil 2025 5 1) = true
    ∧ BaseScraper_is_holiday (daysFromCivil 2025 12 2) = true
    ∧ BaseScraper_is_holiday (daysFromCivil 2025 1 4) = true
    ∧ BaseScraper_is_holiday (daysFromCivil 2025 1 5) = true
    ∧ BaseScraper_is_holiday (daysFromCivil 2025 1 6) = false
    ∧ BOLScraper_is_holiday (daysFromCivil 2025 1 1) = false
    ∧ weekday (daysFromCivil 2025 1 4) = 5
    ∧ BOLScraper_is_holiday (daysFromCivil 2025 1 4) = false := by
  refine ⟨BaseScraper_is_holiday_char, ?_, ?_, BOLScraper_is_holiday_eq_false,
    by decide, by decide, by decide, by decide, by decide, by decide,
    by decide, by decide, by decide⟩
  · intro z hm hd
    rw [BaseScraper_is_holiday]
    by_cases h : 5 ≤ weekday z
    · rw [if_pos h]
    · rw [if_neg h]
      have : fmtMD z = "01-01".data := by
        rw [fmtMD, hm, hd]
        decide
      rw [this]
      decide
  · intro z h
    rw [BaseScraper_is_holiday, if_pos h]

/-! Previous-business-day properties. -/

theorem bcel_prev_business_lt_and_trading (fuel : Nat) :
    ∀ z r : Int, BCELScraper_get_previous_business_day fuel z = some r →
      r < z ∧ BaseScraper_is_holiday r = false := by
  induction fuel with
  | zero =>
    intro z r h
    simp [BCELScraper_get_previous_business_day] at h
  | succ f ih =>
    intro z r h
    rw [BCELScraper_get_previous_business_day] at h
    by_cases hb : BaseScraper_is_holiday (z - 1) = true
    · rw [if_pos hb] at h
      obtain ⟨h1, h2⟩ := ih (z - 1) r h
      exact ⟨by omega, h2⟩
    · rw [if_neg hb] at h
      have := Option.some.inj h
      subst this
      exact ⟨by omega, by simpa using hb⟩

theorem bol_prev_business_lt_and_weekday (fuel : Nat) :
    ∀ z r : Int, BOLScraper_get_previous_business_day fuel z = some r →
      r < z ∧ weekday r < 5 := by
  induction fuel with
  | zero =>
    intro z r h
    simp [BOLScraper_get_previous_business_day] at h
  | succ f ih =>
    intro z r h
    rw [BOLScraper_get_previous_business_day] at h
    by_cases hb : weekday (z - 1) < 5
    · rw [if_pos hb] at h
      have := Option.some.inj h
      subst this
      exact ⟨by omega, hb⟩
    · rw [if_neg hb] at h
      obtain ⟨h1, h2⟩ := ih (z - 1) r h
      exact ⟨by omega, h2⟩

theorem iterPrevBusinessBCEL_lt_and_trading (fuel : Nat) (k : Nat) :
    ∀ z r : Int, iterPrevBusinessBCEL fuel (k + 1) z = some r →
      r < z ∧ BaseScraper_is_holiday r = false := by
  induction k with
  | zero =>
    intro z r h
    rw [iterPrevBusinessBCEL] at h
    cases hp : BCELScraper_get_previous_business_day fuel z with
    | none => rw [hp] at h; simp at h
    | some z' =>
      rw [hp] at h
      simp only [iterPrevBusinessBCEL] at h
      obtain rfl := Option.some.inj h
      exact bcel_prev_business_lt_and_trading fuel z _ hp
  | succ m ih =>
    intro z r h
    rw [iterPrevBusinessBCEL] at h
    cases hp : BCELScraper_get_previous_business_day fuel z with
    | none => rw [hp] at h; simp at h
    | some z' =>
      rw [hp] at h
      obtain ⟨h1, h2⟩ := ih z' r h
      have h3 := (bcel_prev_business_lt_and_trading fuel z z' hp).1
      exact ⟨by omega, h2⟩

/-- Claim C3 counterexample: `BOLScraper._get_previous_business_day`
applied to Thursday 2025-01-02 returns Wednesday 2025-01-01, whose
month-day 01-01 is in the configured fixed-holiday set, so the result is
not a trading day as the claim requires of every scraper. -/
theorem C3_counterexample :
    BOLScraper_get_previous_business_day 7 (daysFromCivil 2025 1 2) =
        some (daysFromCivil 2025 1 1)
      ∧ fmtMD (daysFromCivil 2025 1 1) ∈ HOLIDAYS
      ∧ BaseScraper_is_holiday (daysFromCivil 2025 1 1) = true := by
  refine ⟨by decide, by decide, by decide⟩

/-- Claim C3 as amended: the BCEL/LDB/APB/LVB walk, whenever it yields a
date, yields a strictly earlier non-weekend non-holiday date, and this is
stable under arbitrary repeated application; the BOL and LAKScraper
versions guarantee only a strictly earlier weekday and can return a
configured fixed holiday (2025-01-02 ↦ 2025-01-01); the `BaseScraper`
version itself raises `AttributeError` (`datetime.timedelta`) and never
returns. -/
theorem C3_amended :
    (∀ (fuel : Nat) (z r : Int),
      BCELScraper_get_previous_business_day fuel z = some r →
        r < z ∧ BaseScraper_is_holiday r = false)
    ∧ (∀ (fuel k : Nat) (z r : Int),
      iterPrevBusinessBCEL fuel (k + 1) z = some r →
        r < z ∧ BaseScraper_is_holiday r = false)
    ∧ (∀ (fuel : Nat) (z r : Int),
      BOLScraper_get_previous_business_day fuel z = some r →
        r < z ∧ weekday r < 5)
    ∧ (BOLScraper_get_previous_business_day 7 (daysFromCivil 2025 1 2) =
          some (daysFromCivil 2025 1 1)
        ∧ BaseScraper_is_holiday (daysFromCivil 2025 1 1) = true) :=
  ⟨fun fuel z r h => bcel_prev_business_lt_and_trading fuel z r h,
   fun fuel k z r h => iterPrevBusinessBCEL_lt_and_trading fuel k z r h,
   fun fuel z r h => bol_prev_business_lt_and_weekday fuel z r h,
   by decide, by decide⟩

/-- Witness for the amended claim C3 at a concrete input: walking back from
Monday 2025-01-06 yields Friday 2025-01-03, strictly earlier and a trading
day. -/
theorem C3_amended_witness :
    daysFromCivil 2025 1 3 < daysFromCivil 2025 1 6
      ∧ BaseScraper_is_holiday (daysFromCivil 2025 1 3) = false :=
  C3_amended.1 7 (daysFromCivil 2025 1 6) (daysFromCivil 2025 1 3) (by decide)

/-- Claim C4: the persisted store.  The `exchange_rates` schema has no
`rate_type` column and its uniqueness constraint is
`UNIQUE(currency, bank, date)`, so an upsert of a second value under the
same `(currency, date, bank)` — which is exactly what `main.py` does when
it saves the buy and then the sell rate of one currency — leaves a single
row holding the later value: buy and sell rows cannot coexist.  (The
callers even pass a fifth `rate_type` argument, `db.save_rate(currency,
rate, 'buy', date, bank)` in `main.py`, which the four-parameter
`save_rate` signature rejects with a `TypeError`, and
`src/views/view_rates.py` selects a `rate_type` column that the schema
never creates.) -/
theorem C4_theorem :
    save_rate (save_rate [] "USD" 21500 (daysFromCivil 2025 1 6) "BCEL")
        "USD" 21600 (daysFromCivil 2025 1 6) "BCEL" =
      [⟨"USD", 21600, "BCEL", daysFromCivil 2025 1 6⟩] := by
  rfl

/-- Claim C5 counterexample: requested Monday 2025-01-06 (a trading day)
with data published only for the previous trading day, Friday 2025-01-03.
The claim says the three-attempt lookback walks previous **trading** days
and so must find the Friday data; the legacy `fetch_bcel_rate` instead
retries the previous two **calendar** days (Sunday the 5th, Saturday the
4th) and returns the no-data failure. -/
theorem C5_counterexample :
    BCELScraper_fetch_bcel_rate
        (fun z => z == daysFromCivil 2025 1 3) (daysFromCivil 2025 1 6) = none
      ∧ BCELScraper_get_previous_business_day 7 (daysFromCivil 2025 1 6) =
          some (daysFromCivil 2025 1 3)
      ∧ BaseScraper_is_holiday (daysFromCivil 2025 1 6) = false := by
  refine ⟨by decide, by decide, by decide⟩

/-- Claim C5 as amended: the legacy `BCELScraper.fetch_bcel_rate` makes at
most three attempts — against the holiday-adjusted requested date and the
two preceding **calendar** days, not previous trading days — and fails
with no-data exactly when all three lack data; the package
`BCELScraper.fetch_rate` and `BOLScraper.fetch_rate` make a single attempt
and return the no-data failure immediately when it yields an empty rate
set. -/
theorem C5_amended :
    (∀ (h : Int → Bool) (z d0 : Int),
      (if BaseScraper_is_holiday z then
         BCELScraper_get_previous_business_day 366 z else some z) = some d0 →
      (BCELScraper_fetch_bcel_rate h z = none ↔
        h d0 = false ∧ h (d0 - 1) = false ∧ h (d0 - 2) = false))
    ∧ (∀ (h : Int → Bool) (z d0 : Int),
      (if BaseScraper_is_holiday z then
         BCELScraper_get_previous_business_day 366 z else some z) = some d0 →
      (BCELScraper_fetch_rate h z = none ↔ h d0 = false))
    ∧ (∀ (h : Int → Bool) (z d0 : Int),
      (if BOLScraper_is_holiday z then
         BOLScraper_get_previous_business_day 366 z else some z) = some d0 →
      (BOLScraper_fetch_rate h z = none ↔ h d0 = false)) := by
  refine ⟨?_, ?_, ?_⟩
  · intro h z d0 hd
    rw [BCELScraper_fetch_bcel_rate, hd]
    cases h1 : h d0 <;> cases h2 : h (d0 - 1) <;> cases h3 : h (d0 - 2) <;>
      simp [h1, h2, h3]
  · intro h z d0 hd
    rw [BCELScraper_fetch_rate, hd]
    cases h1 : h d0 <;> simp [h1]
  · intro h z d0 hd
    rw [BOLScraper_fetch_rate, hd]
    cases h1 : h d0 <;> simp [h1]

/-- Witness for the amended claim C5 at a concrete input: with no data on
any day, the legacy fetch reports no-data for Monday 2025-01-06. -/
theorem C5_amended_witness :
    BCELScraper_fetch_bcel_rate (fun _ => false) (daysFromCivil 2025 1 6) = none :=
  (C5_amended.1 (fun _ => false) (daysFromCivil 2025 1 6) (daysFromCivil 2025 1 6)
    (by decide)).mpr ⟨rfl, rfl, rfl⟩

/-- Claim C1 counterexample: for the same source (BOL) and the same
currency (CNY), the text `"2,965"` parses to magnitude 2.965 and is
multiplied by 1000, while the text `"2965"` parses to magnitude 2965 and
is multiplied by 1: no single scale factor explains both outputs, so the
correction is decided by the magnitude of the parsed value and not by a
per-(source, currency) configuration table. -/
theorem C1_counterexample :
    BOLScraper_parse_value ("2,965".data) = some (2965, 3)
      ∧ BOLScraper_extract_rate ("2,965".data) ("CNY".data) = some 2965
      ∧ BOLScraper_parse_value ("2965".data) = some (2965, 0)
      ∧ BOLScraper_extract_rate ("2965".data) ("CNY".data) = some 2965
      ∧ ratOfParts (2965, 3) ≠ ratOfParts (2965, 0)
      ∧ ¬ ∃ f : ℚ, (2965 : ℚ) = f * ratOfParts (2965, 3)
          ∧ (2965 : ℚ) = f * ratOfParts (2965, 0) := by
  refine ⟨by decide, ?_, by decide, ?_, ?_, ?_⟩
  · rw [BOLScraper_extract_rate,
      show BOLScraper_parse_value ("2,965".data) = some (2965, 3) from by decide]
    simp only [Option.map_some']
    rw [bolAdjustCNY,
      if_pos ⟨rfl, by rw [ratOfParts]; norm_num, by rw [ratOfParts]; norm_num⟩]
    rw [ratOfParts]
    norm_num
  · rw [BOLScraper_extract_rate,
      show BOLScraper_parse_value ("2965".data) = some (2965, 0) from by decide]
    simp only [Option.map_some']
    rw [bolAdjustCNY, if_neg (by
      rintro ⟨-, -, hcon⟩
      rw [ratOfParts] at hcon
      norm_num at hcon)]
    rw [ratOfParts]
    norm_num
  · rw [ratOfParts, ratOfParts]
    norm_num
  · rintro ⟨f, h1, h2⟩
    rw [ratOfParts] at h1 h2
    norm_num at h1 h2
    have hf : f = 1 := by linarith
    subst hf
    norm_num at h1

/-- Claim C1 as amended: the scale correction applied by the normalizers is
decided by the magnitude of the parsed value through hard-coded
per-currency thresholds — BOL and BCEL multiply a CNY value strictly
between 0 and 10 by 1000, and BCEL divides a KRW value above 1000 by
100 — and no per-(source, currency) configuration table exists, so two
inputs for the same source and currency parsing to different magnitudes
can receive different scale factors. -/
theorem C1_amended :
    (∀ (text : List Char) (p : Nat × Nat),
      BOLScraper_parse_value text = some p →
        BOLScraper_extract_rate text ("CNY".data) =
          some (if 0 < ratOfParts p ∧ ratOfParts p < 10
            then ratOfParts p * 1000 else ratOfParts p))
    ∧ (∀ (text cur : List Char) (p : Nat × Nat),
      BOLScraper_parse_value text = some p → cur ≠ "CNY".data →
        BOLScraper_extract_rate text cur = some (ratOfParts p))
    ∧ (∀ (text : List Char) (p : Nat × Nat),
      BCELScraper_parse_value text = some p →
        BCELScraper_extract_rate text ("CNY".data) =
          some (if ratOfParts p < 10 ∧ 0 < ratOfParts p
            then ratOfParts p * 1000 else ratOfParts p))
    ∧ (∀ (text : List Char) (p : Nat × Nat),
      BCELScraper_parse_value text = some p →
        BCELScraper_extract_rate text ("KRW".data) =
          some (if 1000 < ratOfParts p
            then ratOfParts p / 100 else ratOfParts p)) := by
  refine ⟨?_, ?_, ?_, ?_⟩
  · intro text p hp
    rw [BOLScraper_extract_rate, hp]
    simp only [Option.map_some']
    rw [bolAdjustCNY]
    by_cases hc : 0 < ratOfParts p ∧ ratOfParts p < 10
    · rw [if_pos ⟨rfl, hc.1, hc.2⟩, if_pos hc]
    · rw [if_neg (by rintro ⟨-, h1, h2⟩; exact hc ⟨h1, h2⟩), if_neg hc]
  · intro text cur p hp hcur
    rw [BOLScraper_extract_rate, hp]
    simp only [Option.map_some']
    rw [bolAdjustCNY, if_neg (by rintro ⟨hcon, -⟩; exact hcur hcon)]
  · intro text p hp
    rw [BCELScraper_extract_rate, hp]
    simp only [Option.map_some']
    rw [bcelAdjust, if_pos rfl]
  · intro text p hp
    rw [BCELScraper_extract_rate, hp]
    simp only [Option.map_some']
    rw [bcelAdjust, if_neg (by decide), if_pos rfl]

/-- Witness for the amended claim C1 at a concrete input: the CNY text
`"2,965"` at BOL receives the magnitude-triggered ×1000 correction. -/
theorem C1_amended_witness :
    BOLScraper_extract_rate ("2,965".data) ("CNY".data) =
      some (if 0 < ratOfParts (2965, 3) ∧ ratOfParts (2965, 3) < 10
        then ratOfParts (2965, 3) * 1000 else ratOfParts (2965, 3)) :=
  C1_amended.1 ("2,965".data) (2965, 3) (by decide)

/-- Claim C8 counterexample: under the comma-is-decimal convention (BOL)
with no scale correction (a non-CNY currency, scale 1), the input
`"2,930"` normalizes to 2.93, not to 2930.0 as the spec's worked example
states. -/
theorem C8_counterexample :
    BOLScraper_extract_rate ("2,930".data) ("USD".data) = some (293 / 100)
      ∧ (293 / 100 : ℚ) ≠ 2930 := by
  constructor
  · rw [BOLScraper_extract_rate,
      show BOLScraper_parse_value ("2,930".data) = some (2930, 3) from by decide]
    simp only [Option.map_some']
    rw [bolAdjustCNY, if_neg (by
      rintro ⟨hcon, -⟩
      revert hcon
      decide)]
    rw [ratOfParts]
    norm_num
  · norm_num

/-- Claim C8 as amended: `"2,930"` normalizes to 2930.0 under the
comma-is-thousands/dot-is-decimal convention (BCEL), not under the
comma-is-decimal convention, where it yields 2.93 at scale 1; the other
two worked examples hold as stated: `"1,234.56"` → 1234.56 under the
comma-thousands convention and `"1.234,56"` → 1234.56 under the
dot-thousands convention. -/
theorem C8_amended :
    BCELScraper_extract_rate ("2,930".data) ("USD".data) = some 2930
      ∧ BCELScraper_extract_rate ("1,234.56".data) ("USD".data) =
          some (123456 / 100)
      ∧ BOLScraper_extract_rate ("1.234,56".data) ("USD".data) =
          some (123456 / 100) := by
  have husd : ("USD".data ≠ "CNY".data) ∧ ("USD".data ≠ "KRW".data) := by decide
  refine ⟨?_, ?_, ?_⟩
  · rw [BCELScraper_extract_rate,
      show BCELScraper_parse_value ("2,930".data) = some (2930, 0) from by decide]
    simp only [Option.map_some']
    rw [bcelAdjust, if_neg husd.1, if_neg husd.2]
    rw [ratOfParts]
    norm_num
  · rw [BCELScraper_extract_rate,
      show BCELScraper_parse_value ("1,234.56".data) = some (123456, 2) from by decide]
    simp only [Option.map_some']
    rw [bcelAdjust, if_neg husd.1, if_neg husd.2]
    rw [ratOfParts]
    norm_num
  · rw [BOLScraper_extract_rate,
      show BOLScraper_parse_value ("1.234,56".data) = some (123456, 2) from by decide]
    simp only [Option.map_some']
    rw [bolAdjustCNY, if_neg (by rintro ⟨hcon, -⟩; revert hcon; decide)]
    rw [ratOfParts]
    norm_num

/-- Claim C10: the `_parse_rate` helpers of the BCEL, APB and LVB scrapers
return 0.0 for every input whose cleaned text fails `float` conversion —
including the empty string and the `"-"` sentinel — instead of signalling
an error. -/
theorem C10_theorem :
    (∀ s : List Char,
      parseDecimal (((pyStrip s).filter (fun c => c ≠ '.')).map
        (fun c => if c = ',' then '.' else c)) = none →
      BCELScraper_parse_rate s = 0)
    ∧ (∀ s : List Char,
      parseDecimal ((pyStrip s).filter (fun c => c ≠ ',')) = none →
      APBScraper_parse_rate s = 0)
    ∧ (∀ s : List Char,
      parseDecimal (((pyStrip s).filter (fun c => c ≠ '.')).map
        (fun c => if c = ',' then '.' else c)) = none →
      LVBScraper_parse_rate s = 0)
    ∧ BCELScraper_parse_rate ("".data) = 0
    ∧ BCELScraper_parse_rate ("-".data) = 0
    ∧ APBScraper_parse_rate ("".data) = 0
    ∧ APBScraper_parse_rate ("-".data) = 0
    ∧ LVBScraper_parse_rate ("".data) = 0
    ∧ LVBScraper_parse_rate ("-".data) = 0 := by
  have hB : ∀ s : List Char,
      parseDecimal (((pyStrip s).filter (fun c => c ≠ '.')).map
        (fun c => if c = ',' then '.' else c)) = none →
      BCELScraper_parse_rate s = 0 := by
    intro s h
    rw [BCELScraper_parse_rate, h]
    rfl
  have hA : ∀ s : List Char,
      parseDecimal ((pyStrip s).filter (fun c => c ≠ ',')) = none →
      APBScraper_parse_rate s = 0 := by
    intro s h
    rw [APBScraper_parse_rate, h]
    rfl
  have hL : ∀ s : List Char,
      parseDecimal (((pyStrip s).filter (fun c => c ≠ '.')).map
        (fun c => if c = ',' then '.' else c)) = none →
      LVBScraper_parse_rate s = 0 := by
    intro s h
    rw [LVBScraper_parse_rate, h]
    rfl
  exact ⟨hB, hA, hL, hB _ (by decide), hB _ (by decide), hA _ (by decide),
    hA _ (by decide), hL _ (by decide), hL _ (by decide)⟩

/-- Witness for claim C10 at a concrete input: the `"-"` sentinel yields
the silent zero rate in the BCEL helper. -/
theorem C10_theorem_witness : BCELScraper_parse_rate ("-".data) = 0 :=
  C10_theorem.1 ("-".data) (by decide)

/-- Claim C6 counterexample: with the baseline bank (BOL) present but equal
to zero, the comparison cell is the number 0 (rendered `0.00%`), not the
undefined/"N/A" cell the claim requires — only an absent value produces
"N/A". -/
theorem C6_counterexample :
    displayPercentCell (some 0) (some 100) = some 0
      ∧ displayPercentCell (some 0) (some 100) ≠ none := by
  constructor
  · simp [displayPercentCell]
  · simp [displayPercentCell]

/-- Claim C6 as amended: the comparison renders "N/A" exactly when one of
the two values is absent; division by zero is indeed avoided, but a
present-and-zero baseline yields the **number** 0 (rendered `0.00%`),
both in `RateComparator.display_comparison` and in
`ExchangeRateDB.get_rate_comparison`; with a nonzero baseline the
percentage equals `(other − baseline) / baseline × 100`. -/
theorem C6_amended :
    (∀ b c : ℚ, b ≠ 0 →
      displayPercentCell (some b) (some c) = some ((c - b) / b * 100))
    ∧ (∀ c : ℚ, displayPercentCell (some 0) (some c) = some 0)
    ∧ (∀ x : Option ℚ, displayPercentCell none x = none)
    ∧ (∀ b : ℚ, displayPercentCell (some b) none = none)
    ∧ (∀ b c : ℚ, b ≠ 0 →
      get_rate_comparison_percent b c = (c - b) / b * 100)
    ∧ (∀ c : ℚ, get_rate_comparison_percent 0 c = 0) := by
  refine ⟨?_, ?_, ?_, ?_, ?_, ?_⟩
  · intro b c hb
    simp [displayPercentCell, hb]
  · intro c
    simp [displayPercentCell]
  · intro x
    cases x <;> rfl
  · intro b
    rfl
  · intro b c hb
    simp [get_rate_comparison_percent, hb]
  · intro c
    simp [get_rate_comparison_percent]

/-- Witness for the amended claim C6 at a concrete input. -/
theorem C6_amended_witness :
    displayPercentCell (some 2) (some 3) = some ((3 - 2) / 2 * 100) :=
  C6_amended.1 2 3 (by norm_num)

/-! Per-row parse facts. -/

theorem mem_parse_foldr {A : Type} (f : A -> Option ParsedQuote)
    (rows : List A) (q : ParsedQuote) (h : q ∈ keptQuotes f rows) :
    ∃ row ∈ rows, f row = some q := by
  induction rows with
  | nil => simp [keptQuotes] at h
  | cons r rest ih =>
    rw [keptQuotes, List.foldr_cons] at h
    rw [← keptQuotes] at h
    cases hf : f r with
    | none =>
      rw [hf] at h
      obtain ⟨row, hrow, hq⟩ := ih h
      exact ⟨row, List.mem_cons_of_mem r hrow, hq⟩
    | some x =>
      rw [hf] at h
      rcases List.mem_cons.mp h with h1 | h2
      · exact ⟨r, List.mem_cons_self r rest, by rw [hf, h1]⟩
      · obtain ⟨row, hrow, hq⟩ := ih h2
        exact ⟨row, List.mem_cons_of_mem r hrow, hq⟩

theorem bcelParseRow_both_sides (row : RawRow) (q : ParsedQuote)
    (h : bcelParseRow row = some q) :
    q.buy.isSome = true ∧ q.sell.isSome = true := by
  rw [bcelParseRow] at h
  by_cases h1 : row.currencyText = [] ∨ row.currencyText.length < 3
  · rw [if_pos h1] at h
    simp at h
  · rw [if_neg h1] at h
    by_cases h2 : row.buyText = ['-'] ∨ row.sellText = ['-']
    · rw [if_pos h2] at h
      simp at h
    · rw [if_neg h2] at h
      cases hb : parseDecimal (row.buyText.filter (fun c => c ≠ ',')) with
      | none =>
        cases hs : parseDecimal (row.sellText.filter (fun c => c ≠ ',')) with
        | none => rw [hb, hs] at h; simp at h
        | some s => rw [hb, hs] at h; simp at h
      | some b =>
        cases hs : parseDecimal (row.sellText.filter (fun c => c ≠ ',')) with
        | none => rw [hb, hs] at h; simp at h
        | some s =>
          rw [hb, hs] at h
          dsimp only at h
          by_cases h3 : row.currencyText.take 3 = "USD".data ∨
              row.currencyText.take 3 = "EUR".data
          · rw [if_pos h3] at h
            by_cases h4 : hasSubstring (pyStrip (row.currencyText.drop 3))
                  ("50-100".data) ∨
                hasSubstring (pyStrip (row.currencyText.drop 3)) ("50-500".data)
            · rw [if_pos h4] at h
              obtain rfl := Option.some.inj h
              exact ⟨rfl, rfl⟩
            · rw [if_neg h4] at h
              simp at h
          · rw [if_neg h3] at h
            obtain rfl := Option.some.inj h
            exact ⟨rfl, rfl⟩

theorem ldbParseItem_both_sides (item : LdbItem) (q : ParsedQuote)
    (h : ldbParseItem item = some q) :
    q.buy.isSome = true ∧ q.sell.isSome = true := by
  rw [ldbParseItem] at h
  cases hfb : item.fxBuy with
  | none =>
    cases hfs : item.fxSell with
    | none => rw [hfb, hfs] at h; simp at h
    | some st => rw [hfb, hfs] at h; simp at h
  | some bt =>
    cases hfs : item.fxSell with
    | none => rw [hfb, hfs] at h; simp at h
    | some st =>
      rw [hfb, hfs] at h
      dsimp only at h
      by_cases h1 : item.name = []
      · rw [if_pos h1] at h
        simp at h
      · rw [if_neg h1] at h
        cases hb : parseDecimal bt with
        | none =>
          cases hs : parseDecimal st with
          | none => rw [hb, hs] at h; simp at h
          | some s => rw [hb, hs] at h; simp at h
        | some b =>
          cases hs : parseDecimal st with
          | none => rw [hb, hs] at h; simp at h
          | some s =>
            rw [hb, hs] at h
            dsimp only at h
            obtain rfl := Option.some.inj h
            exact ⟨rfl, rfl⟩

/-- Claim C7 counterexample: a BCEL row publishing only a sell price (buy
cell is the `"-"` sentinel) is dropped entirely by `BCELScraper.parse`
instead of yielding a quote with `buy = null` and the sell value. -/
theorem C7_counterexample :
    BCELScraper_parse [⟨"USD 50-100".data, "-".data, "21,600".data⟩] = [] := by
  rfl

/-- Claim C7 as amended: only `BOLScraper.parse` keeps a row whose only
published price is a sell price (emitting `buy = none` with the sell value
present); `BCELScraper.parse` drops any row whose buy or sell cell is
`"-"` and every quote it emits has both sides, and `LDBScraper.parse`
likewise drops items missing either side and only emits two-sided
quotes. -/
theorem C7_amended :
    BOLScraper_parse [⟨"HKD".data, "-".data, "2.756,00".data⟩] =
        [⟨"HKD".data, none, some 2756⟩]
      ∧ (∀ (rows : List RawRow) (q : ParsedQuote),
        q ∈ BCELScraper_parse rows → q.buy.isSome = true ∧ q.sell.isSome = true)
      ∧ (∀ (items : List LdbItem) (q : ParsedQuote),
        q ∈ LDBScraper_parse items → q.buy.isSome = true ∧ q.sell.isSome = true) := by
  refine ⟨?_, ?_, ?_⟩
  · have hsell : BOLScraper_extract_rate ("2.756,00".data) ("HKD".data) =
        some 2756 := by
      rw [BOLScraper_extract_rate,
        show BOLScraper_parse_value ("2.756,00".data) = some (275600, 2) from by decide]
      simp only [Option.map_some']
      rw [bolAdjustCNY, if_neg (by
        rintro ⟨hcon, -⟩
        revert hcon
        decide)]
      rw [ratOfParts]
      norm_num
    have hbuy : BOLScraper_extract_rate ("-".data) ("HKD".data) = none := by
      rfl
    rw [BOLScraper_parse, keptQuotes, List.foldr_cons, List.foldr_nil]
    rw [bolParseRow]
    rw [if_neg (by decide)]
    simp only [hsell, hbuy]
    rfl
  · intro rows q hq
    rw [BCELScraper_parse] at hq
    obtain ⟨row, _, hrow⟩ := mem_parse_foldr bcelParseRow rows q hq
    exact bcelParseRow_both_sides row q hrow
  · intro items q hq
    rw [LDBScraper_parse] at hq
    obtain ⟨item, _, hitem⟩ := mem_parse_foldr ldbParseItem items q hq
    exact ldbParseItem_both_sides item q hitem


/-- Witness for the amended claim C7 at a concrete input: the quote that
`BCELScraper.parse` emits for a fully-populated USD row has both sides. -/
theorem C7_amended_witness :
    (⟨"USD".data, some 21500, some 21600⟩ : ParsedQuote).buy.isSome = true
      ∧ (⟨"USD".data, some 21500, some 21600⟩ : ParsedQuote).sell.isSome = true :=
  C7_amended.2.1 [⟨"USD 50-100".data, "21,500".data, "21,600".data⟩]
    ⟨"USD".data, some 21500, some 21600⟩ (by
      show ⟨"USD".data, some 21500, some 21600⟩ ∈
        BCELScraper_parse [⟨"USD 50-100".data, "21,500".data, "21,600".data⟩]
      rw [show BCELScraper_parse [⟨"USD 50-100".data, "21,500".data, "21,600".data⟩] =
          [⟨"USD".data, some (ratOfParts (21500, 0)), some (ratOfParts (21600, 0))⟩] from rfl]
      rw [show ratOfParts (21500, 0) = 21500 from by rw [ratOfParts]; norm_num]
      rw [show ratOfParts (21600, 0) = 21600 from by rw [ratOfParts]; norm_num]
      exact List.mem_singleton_self _)

/-- Claim C9 counterexample: under the BOL convention (dot is the
thousands separator), `"2930"` normalizes to 2930.0, Python renders that
value as `"2930.0"`, and re-normalizing `"2930.0"` strips the dot as a
thousands separator and yields 29300.0 ≠ 2930.0 — so
`normalize(str(normalize(x))) ≠ normalize(x)`. -/
theorem C9_counterexample :
    BOLScraper_extract_rate ("2930".data) ("USD".data) = some 2930
      ∧ renderDecimal 2930 = "2930.0".data
      ∧ BOLScraper_extract_rate ("2930.0".data) ("USD".data) = some 29300
      ∧ (29300 : ℚ) ≠ 2930 := by
  refine ⟨?_, rfl, ?_, by norm_num⟩
  · rw [BOLScraper_extract_rate,
      show BOLScraper_parse_value ("2930".data) = some (2930, 0) from by decide]
    simp only [Option.map_some']
    rw [bolAdjustCNY, if_neg (by
      rintro ⟨hcon, -⟩
      revert hcon
      decide)]
    rw [ratOfParts]
    norm_num
  · rw [BOLScraper_extract_rate,
      show BOLScraper_parse_value ("2930.0".data) = some (29300, 0) from by decide]
    simp only [Option.map_some']
    rw [bolAdjustCNY, if_neg (by
      rintro ⟨hcon, -⟩
      revert hcon
      decide)]
    rw [ratOfParts]
    norm_num

/-- Claim C9 as amended: normalization is idempotent on the canonical
decimal rendering of its output for the comma-thousands/dot-decimal
(BCEL-style) convention on currencies without a magnitude-based
adjustment (any currency other than CNY and KRW); it fails for the
dot-thousands conventions (BOL/LVB/LAKScraper), where re-normalizing the
rendering multiplies the value by a power of ten, and for BCEL's CNY/KRW
whose adjustment can fire again on the re-parse. -/
theorem C9_amended (text cur : List Char) (r : ℚ)
    (hc1 : cur ≠ "CNY".data) (hc2 : cur ≠ "KRW".data)
    (hx : BCELScraper_extract_rate text cur = some r) :
    BCELScraper_extract_rate (renderDecimal r) cur = some r := by
  have hadj : ∀ q : ℚ, bcelAdjust cur q = q := by
    intro q
    rw [bcelAdjust, if_neg hc1, if_neg hc2]
  rw [BCELScraper_extract_rate] at hx
  cases hp : BCELScraper_parse_value text with
  | none =>
    rw [hp] at hx
    simp at hx
  | some p =>
    rw [hp] at hx
    simp only [Option.map_some'] at hx
    rw [hadj] at hx
    have hr : ratOfParts p = r := Option.some.inj hx
    have h0 : 0 ≤ r := hr ▸ ratOfParts_nonneg p
    have hdvd : r.den ∣ 10 ^ r.den := hr ▸ ratOfParts_den_dvd p
    obtain ⟨p', hp', hrp'⟩ := bcel_parse_value_render r h0 hdvd
    rw [BCELScraper_extract_rate, hp']
    simp only [Option.map_some']
    rw [hadj, hrp']

/-- Witness for the amended claim C9 at a concrete input: `"5"` under the
BCEL convention for USD normalizes to 5.0, and normalizing its rendering
gives 5.0 again. -/
theorem C9_amended_witness :
    BCELScraper_extract_rate (renderDecimal 5) ("USD".data) = some 5 :=
  C9_amended ("5".data) ("USD".data) 5 (by decide) (by decide) (by
    rw [BCELScraper_extract_rate,
      show BCELScraper_parse_value ("5".data) = some (5, 0) from by decide]
    simp only [Option.map_some']
    rw [bcelAdjust, if_neg (by decide), if_neg (by decide)]
    rw [ratOfParts]
    norm_num)
